import Mathlib

/-!
# Verification of the chat_room real-time fan-out layer

Shallow embedding of the broker-backed variant of the repository
(`services.WebSocketManager`, `services.KafkaService`,
`services.MessageService`, `services.Client`) and proofs about the
claims of the specification.

Go strings are modelled as `String` or `List Char`, Go `uint` as `Nat`,
the `int32` connection counter as `Int`, Go maps as association lists
with replace-on-insert semantics, channels as FIFO `List`s with a
capacity, and the Redis online-user set as a `List Nat` with
set-insert/remove semantics.  External effects (Kafka publishes) are
recorded in explicit output lists.
-/

namespace ChatRoom

/-! ## Go map primitives (`map[uint]*Client` semantics) -/

/-- Lookup in a Go map modelled as an association list
(first binding for the key wins; reachable states keep keys unique). -/
def mapLookup : List (Nat × Nat) → Nat → Option Nat
  | [], _ => none
  | (k, v) :: rest, u => if k = u then some v else mapLookup rest u

/-- `m[k] = v` on a Go map: replaces the binding in place when the key is
present, otherwise appends a fresh binding. -/
def mapInsert : List (Nat × Nat) → Nat → Nat → List (Nat × Nat)
  | [], k, v => [(k, v)]
  | (k0, v0) :: rest, k, v =>
    if k0 = k then (k, v) :: rest else (k0, v0) :: mapInsert rest k v

/-- `delete(m, k)` on a Go map: removes the (unique) binding for `k`. -/
def mapErase : List (Nat × Nat) → Nat → List (Nat × Nat)
  | [], _ => []
  | (k0, v0) :: rest, k =>
    if k0 = k then rest else (k0, v0) :: mapErase rest k

theorem mapLookup_none_insert {m : List (Nat × Nat)} {k v : Nat}
    (h : mapLookup m k = none) : mapInsert m k v = m ++ [(k, v)] := by
  induction m with
  | nil => rfl
  | cons hd tl ih =>
    obtain ⟨k0, v0⟩ := hd
    simp only [mapLookup] at h
    by_cases hk : k0 = k
    · simp [hk] at h
    · simp only [mapInsert, if_neg hk, List.cons_append, List.cons.injEq, true_and]
      exact ih (by simpa [hk] using h)

theorem length_mapInsert_of_none {m : List (Nat × Nat)} {k v : Nat}
    (h : mapLookup m k = none) :
    (mapInsert m k v).length = m.length + 1 := by
  rw [mapLookup_none_insert h]; simp

theorem length_mapInsert_of_some {m : List (Nat × Nat)} {k v r : Nat}
    (h : mapLookup m k = some r) :
    (mapInsert m k v).length = m.length := by
  induction m with
  | nil => simp [mapLookup] at h
  | cons hd tl ih =>
    obtain ⟨k0, v0⟩ := hd
    simp only [mapLookup] at h
    by_cases hk : k0 = k
    · simp [mapInsert, hk]
    · simp only [mapInsert, if_neg hk, List.length_cons]
      rw [ih (by simpa [hk] using h)]

theorem length_mapErase_of_some {m : List (Nat × Nat)} {k r : Nat}
    (h : mapLookup m k = some r) :
    (mapErase m k).length + 1 = m.length := by
  induction m with
  | nil => simp [mapLookup] at h
  | cons hd tl ih =>
    obtain ⟨k0, v0⟩ := hd
    simp only [mapLookup] at h
    by_cases hk : k0 = k
    · simp [mapErase, hk]
    · simp only [mapErase, if_neg hk, List.length_cons]
      rw [ih (by simpa [hk] using h)]

theorem mapErase_of_none {m : List (Nat × Nat)} {k : Nat}
    (h : mapLookup m k = none) : mapErase m k = m := by
  induction m with
  | nil => rfl
  | cons hd tl ih =>
    obtain ⟨k0, v0⟩ := hd
    simp only [mapLookup] at h
    by_cases hk : k0 = k
    · simp [hk] at h
    · simp only [mapErase, if_neg hk, List.cons.injEq, true_and]
      exact ih (by simpa [hk] using h)

theorem mapLookup_insert_ne {m : List (Nat × Nat)} {k v u : Nat} (h : u ≠ k) :
    mapLookup (mapInsert m k v) u = mapLookup m u := by
  have hku : ¬ k = u := fun hh => h hh.symm
  induction m with
  | nil => simp [mapInsert, mapLookup, hku]
  | cons hd tl ih =>
    obtain ⟨k0, v0⟩ := hd
    by_cases hk : k0 = k
    · subst hk
      simp [mapInsert, mapLookup, hku]
    · simp only [mapInsert, if_neg hk, mapLookup]
      by_cases hu : k0 = u
      · simp [hu]
      · simp [hu, ih]

theorem mapLookup_erase_of_none {m : List (Nat × Nat)} {k u : Nat}
    (h : mapLookup m u = none) : mapLookup (mapErase m k) u = none := by
  induction m with
  | nil => rfl
  | cons hd tl ih =>
    obtain ⟨k0, v0⟩ := hd
    simp only [mapLookup] at h
    by_cases hu : k0 = u
    · simp [hu] at h
    · have h' := ih (by simpa [hu] using h)
      by_cases hk : k0 = k
      · simpa [mapErase, hk, mapLookup, hu] using (by simpa [hu] using h)
      · simp [mapErase, hk, mapLookup, hu, h']

theorem mapLookup_erase_self {m : List (Nat × Nat)} {k : Nat}
    (hnd : (m.map Prod.fst).Nodup) : mapLookup (mapErase m k) k = none := by
  induction m with
  | nil => rfl
  | cons hd tl ih =>
    obtain ⟨k0, v0⟩ := hd
    simp only [List.map_cons, List.nodup_cons] at hnd
    by_cases hk : k0 = k
    · subst hk
      simp only [mapErase, if_pos rfl]
      -- k0 does not occur among the tail keys, so lookup misses
      clear ih
      induction tl with
      | nil => rfl
      | cons hd' tl' ih' =>
        obtain ⟨k1, v1⟩ := hd'
        simp only [List.map_cons, List.mem_cons, List.nodup_cons] at hnd
        have hne : k1 ≠ k0 := fun h => hnd.1 (Or.inl h.symm)
        simp only [mapLookup, if_neg hne]
        exact ih' ⟨fun h => hnd.1 (Or.inr h), hnd.2.2⟩
    · simp only [mapErase, if_neg hk, mapLookup, if_neg hk]
      exact ih hnd.2

/-! ## Connection handles and manager state

`services.Client` (routes.go): `{ID uint; Username string; Conn; Send chan []byte}`.
Handles live on a heap `Nat → Handle` addressed by reference, mirroring Go
pointer identity; `Send` is the bounded FIFO queue (created with buffer 256,
kept as a per-handle capacity field), `sendClosed`/`connClosed` record
`close(c.Send)` and `c.Conn.Close()`. -/

/-- A `*Client`: user identity plus the bounded outbound queue. -/
structure Handle where
  userId : Nat
  username : String
  queue : List Nat
  queueCap : Nat
  sendClosed : Bool
  connClosed : Bool
deriving DecidableEq

/-- Update the handle stored at reference `r` on the heap. -/
def updH (H : Nat → Handle) (r : Nat) (f : Handle → Handle) : Nat → Handle :=
  fun x => if x = r then f (H x) else H x

/-- `close(c.Send)` — marks the outbound queue closed. -/
def closeSend (h : Handle) : Handle := { h with sendClosed := true }

/-- `close(c.Send); c.Conn.Close()` — the replacement path of `RegisterClient`. -/
def closeHandle (h : Handle) : Handle := { h with sendClosed := true, connClosed := true }

/-- A `user_status` publish performed through `publishUserStatus`
(`{user_id, username, status}` wrapped in a `user_status` envelope). -/
structure StatusPub where
  userId : Nat
  username : String
  status : String
deriving DecidableEq

/-- `publishUserStatus` payload: `status = "online"` when connecting,
`"offline"` when disconnecting. -/
def mkStatus (userId : Nat) (username : String) (online : Bool) : StatusPub :=
  { userId := userId, username := username,
    status := if online then "online" else "offline" }

/-- `SAdd(keyOnlineUsers, id)` — Redis set insert. -/
def sAdd (s : List Nat) (u : Nat) : List Nat := if u ∈ s then s else u :: s

/-- `SRem(keyOnlineUsers, id)` — Redis set removal. -/
def sRem (s : List Nat) (u : Nat) : List Nat := s.filter (fun x => x ≠ u)

/-- State of `services.WebSocketManager` together with its external effects:
the `clients` map (user id → handle reference), the handle heap, the atomic
`connectionCount`, the Redis online-users set, and the list of `user_status`
events published so far. -/
structure MgrState where
  clients : List (Nat × Nat)
  handles : Nat → Handle
  connectionCount : Int
  onlineUsers : List Nat
  statusPublished : List StatusPub

/-- `WebSocketManager.RegisterClient` (the registry `Admit`): refuse when the
connection count has reached `maxConnections`; otherwise close any superseded
handle for the same user id, install the new handle, increment the count,
`SAdd` the online set and publish `user_status: online`. -/
def RegisterClient (maxConnections : Int) (s : MgrState) (h : Nat) : Bool × MgrState :=
  if s.connectionCount ≥ maxConnections then
    (false, s)
  else
    let c := s.handles h
    let s1 :=
      match mapLookup s.clients c.userId with
      | some oldRef => { s with handles := updH s.handles oldRef closeHandle }
      | none => s
    (true,
      { s1 with
        clients := mapInsert s1.clients c.userId h
        connectionCount := s1.connectionCount + 1
        onlineUsers := sAdd s1.onlineUsers c.userId
        statusPublished := s1.statusPublished ++ [mkStatus c.userId c.username true] })

/-- `WebSocketManager.UnregisterClient` (the registry `Evict`): when *any*
entry for the client's user id exists, delete it, close the argument's `Send`
queue, decrement the count, `SRem` the online set and publish
`user_status: offline`; otherwise do nothing. -/
def UnregisterClient (s : MgrState) (h : Nat) : MgrState :=
  let c := s.handles h
  match mapLookup s.clients c.userId with
  | some _ =>
    { s with
      clients := mapErase s.clients c.userId
      handles := updH s.handles h closeSend
      connectionCount := s.connectionCount - 1
      onlineUsers := sRem s.onlineUsers c.userId
      statusPublished := s.statusPublished ++ [mkStatus c.userId c.username false] }
  | none => s

/-- `WebSocketManager.SendToUser` (the registry `Deliver`): look up the local
entry; if present, non-blocking send on its queue — on a full queue delete the
entry, close the queue and decrement the count (no presence removal, no status
publish), returning false; missing entry returns false untouched. -/
def SendToUser (s : MgrState) (userID : Nat) (message : Nat) : Bool × MgrState :=
  match mapLookup s.clients userID with
  | some ref =>
    let c := s.handles ref
    if c.queue.length < c.queueCap then
      (true, { s with handles := updH s.handles ref (fun h => { h with queue := h.queue ++ [message] }) })
    else
      (false,
        { s with
          clients := mapErase s.clients userID
          handles := updH s.handles ref closeSend
          connectionCount := s.connectionCount - 1 })
  | none => (false, s)

/-! ## Concrete registry states used for witnesses and counterexamples -/

/-- A heap of fresh handles: reference `r` belongs to user `r`. -/
def exHeap : Nat → Handle :=
  fun r => { userId := r, username := "user", queue := [], queueCap := 256,
             sendClosed := false, connClosed := false }

/-- The empty registry over `exHeap`. -/
def exState0 : MgrState :=
  { clients := [], handles := exHeap, connectionCount := 0,
    onlineUsers := [], statusPublished := [] }

/-- Registry after admitting handle 1 (user 1) under cap 1. -/
def exState1 : MgrState := (RegisterClient 1 exState0 1).2

/-- A heap where both handle 1 (superseded) and handle 2 (newer) belong to
user 1. -/
def exHeap2 : Nat → Handle :=
  fun _ => { userId := 1, username := "alice", queue := [], queueCap := 256,
             sendClosed := false, connClosed := false }

/-- Registry in which user 1's entry has been superseded: it points at
handle 2, while handle 1 is the old connection for the same identity. -/
def cs2 : MgrState :=
  { clients := [(1, 2)], handles := exHeap2, connectionCount := 1,
    onlineUsers := [1], statusPublished := [] }

/-- A heap whose handle has a full outbound queue (capacity 2, 2 queued). -/
def exHeap3 : Nat → Handle :=
  fun _ => { userId := 1, username := "bob", queue := [10, 11], queueCap := 2,
             sendClosed := false, connClosed := false }

/-- Registry with user 1 connected through handle 1 whose queue is full. -/
def cs3 : MgrState :=
  { clients := [(1, 1)], handles := exHeap3, connectionCount := 1,
    onlineUsers := [1], statusPublished := [] }

/-! ## C4 — admission refused at the cap leaves the registry unchanged -/

/-- C4: whenever the process-wide connection count is at or above the
configured cap, `RegisterClient` returns false and returns the state
completely unchanged: no entry inserted or removed, count, presence and
published events untouched, every admitted connection intact. -/
theorem registerClient_at_cap_refused (maxConnections : Int) (s : MgrState) (h : Nat)
    (hcap : s.connectionCount ≥ maxConnections) :
    RegisterClient maxConnections s h = (false, s) := by
  simp [RegisterClient, hcap]

/-- C4 witness: cap 1, user 1 admitted; admitting the distinct user 2 is
refused and the first connection survives untouched. -/
theorem registerClient_at_cap_refused_witness :
    exState1.connectionCount ≥ 1 ∧
    RegisterClient 1 exState1 2 = (false, exState1) ∧
    mapLookup exState1.clients 1 = some 1 :=
  ⟨by decide, registerClient_at_cap_refused 1 exState1 2 (by decide), by decide⟩

/-! ## C7 — delivery to an absent identity has no effect -/

/-- C7: `SendToUser` for an identity with no entry in the local registry map
returns false and leaves the state — map, count, presence set, every queue,
published events — exactly as it was. -/
theorem sendToUser_no_entry (s : MgrState) (userID message : Nat)
    (h : mapLookup s.clients userID = none) :
    SendToUser s userID message = (false, s) := by
  simp [SendToUser, h]

/-- C7 witness: user 2 has no entry in `exState1`; delivery returns false
with the state unchanged. -/
theorem sendToUser_no_entry_witness :
    mapLookup exState1.clients 2 = none ∧
    SendToUser exState1 2 7 = (false, exState1) :=
  ⟨by decide, sendToUser_no_entry exState1 2 7 (by decide)⟩

/-! ## C2 — eviction of a superseded handle -/

/-- C2 counterexample: in `cs2` the entry for user 1 points at the newer
handle 2, yet `UnregisterClient` on the superseded handle 1 removes that
newer entry (the map becomes empty), decrements the count, removes presence
and publishes offline — the code never compares the stored handle with the
evicted one. -/
theorem unregisterClient_superseded_removes_newer :
    mapLookup cs2.clients ((cs2.handles 1).userId) = some 2 ∧ (2 : Nat) ≠ 1 ∧
    (UnregisterClient cs2 1).clients = [] ∧
    (UnregisterClient cs2 1).connectionCount = 0 ∧
    (UnregisterClient cs2 1).onlineUsers = [] ∧
    (UnregisterClient cs2 1).statusPublished = [mkStatus 1 "alice" false] := by
  decide

/-- C2 amended: `UnregisterClient h` removes the registry entry for `h`'s
identity whenever *any* entry for that identity exists — even one superseded
by a newer handle — closing `h`'s own queue (other handles' queues are left
untouched), decrementing the count, removing presence and publishing one
`user_status: offline` event. -/
theorem unregisterClient_removes_any_entry (s : MgrState) (h r : Nat)
    (hnd : (s.clients.map Prod.fst).Nodup)
    (hlook : mapLookup s.clients ((s.handles h).userId) = some r) :
    (UnregisterClient s h).clients = mapErase s.clients ((s.handles h).userId) ∧
    mapLookup (UnregisterClient s h).clients ((s.handles h).userId) = none ∧
    ((UnregisterClient s h).handles h).sendClosed = true ∧
    (∀ x, x ≠ h → (UnregisterClient s h).handles x = s.handles x) ∧
    (UnregisterClient s h).connectionCount = s.connectionCount - 1 ∧
    (UnregisterClient s h).statusPublished
      = s.statusPublished
        ++ [mkStatus ((s.handles h).userId) ((s.handles h).username) false] := by
  simp only [UnregisterClient, hlook]
  refine ⟨trivial, ?_, ?_, ?_, trivial, trivial⟩
  · exact mapLookup_erase_self hnd
  · simp [updH, closeSend]
  · intro x hx
    simp [updH, hx]

/-- C2 amended witness: applied to `cs2` with the superseded handle 1. -/
theorem unregisterClient_removes_any_entry_witness :
    (cs2.clients.map Prod.fst).Nodup ∧
    mapLookup cs2.clients ((cs2.handles 1).userId) = some 2 ∧
    (UnregisterClient cs2 1).connectionCount = cs2.connectionCount - 1 :=
  ⟨by decide, by decide,
    (unregisterClient_removes_any_entry cs2 1 2 (by decide) (by decide)).2.2.2.2.1⟩

/-! ## C3 — delivery to a full queue -/

/-- C3 counterexample: in `cs3` user 1's queue is full; `SendToUser` returns
false and evicts the entry, but publishes *zero* `user_status: offline`
events (the claim demands exactly one) and leaves the identity in the global
presence set. -/
theorem sendToUser_full_no_offline_publish :
    ¬ ((cs3.handles 1).queue.length < (cs3.handles 1).queueCap) ∧
    (SendToUser cs3 1 99).1 = false ∧
    (SendToUser cs3 1 99).2.statusPublished = [] ∧
    (SendToUser cs3 1 99).2.onlineUsers = [1] := by
  decide

/-- C3 amended: delivery to a registered connection whose bounded queue is
full returns false and performs exactly one eviction — removing the registry
entry, closing the outbound queue and decrementing the count once — but it
does *not* remove the identity from the global presence set and publishes
*no* `user_status: offline` event. -/
theorem sendToUser_full_evicts_once (s : MgrState) (userID message r : Nat)
    (hlook : mapLookup s.clients userID = some r)
    (hfull : ¬ ((s.handles r).queue.length < (s.handles r).queueCap)) :
    (SendToUser s userID message).1 = false ∧
    (SendToUser s userID message).2.clients = mapErase s.clients userID ∧
    ((SendToUser s userID message).2.handles r).sendClosed = true ∧
    (SendToUser s userID message).2.connectionCount = s.connectionCount - 1 ∧
    (SendToUser s userID message).2.onlineUsers = s.onlineUsers ∧
    (SendToUser s userID message).2.statusPublished = s.statusPublished := by
  simp only [SendToUser, hlook, if_neg hfull]
  exact ⟨trivial, trivial, by simp [updH, closeSend], trivial, trivial, trivial⟩

/-- C3 amended witness: applied to the full-queue state `cs3`. -/
theorem sendToUser_full_evicts_once_witness :
    mapLookup cs3.clients 1 = some 1 ∧
    ¬ ((cs3.handles 1).queue.length < (cs3.handles 1).queueCap) ∧
    (SendToUser cs3 1 99).2.connectionCount = cs3.connectionCount - 1 :=
  ⟨by decide, by decide,
    (sendToUser_full_evicts_once cs3 1 99 1 (by decide) (by decide)).2.2.2.1⟩

/-! ## C6 — re-admission of an existing identity overcounts -/

/-- C6: when an entry for the new handle's identity already exists and the
count is below the cap, `RegisterClient` succeeds, replaces the map entry in
place (the number of entries is unchanged) yet still increments the
connection count, so afterwards the count strictly exceeds the number of
registry entries. -/
theorem registerClient_existing_overcounts (cap : Int) (s : MgrState) (h r : Nat)
    (hlook : mapLookup s.clients ((s.handles h).userId) = some r)
    (hcap : s.connectionCount < cap)
    (hinv : s.connectionCount = s.clients.length) :
    (RegisterClient cap s h).1 = true ∧
    (RegisterClient cap s h).2.clients.length = s.clients.length ∧
    (RegisterClient cap s h).2.connectionCount = s.connectionCount + 1 ∧
    ((RegisterClient cap s h).2.clients.length : Int)
      < (RegisterClient cap s h).2.connectionCount := by
  have hnot : ¬ s.connectionCount ≥ cap := not_le.mpr hcap
  simp only [RegisterClient, if_neg hnot, hlook]
  refine ⟨trivial, length_mapInsert_of_some hlook, trivial, ?_⟩
  rw [length_mapInsert_of_some hlook, hinv]
  omega

/-- C6 witness: `cs2` (entry for user 1 present, count 1 = one entry, cap 5):
admitting handle 3 for user 1 leaves one entry but raises the count to 2. -/
theorem registerClient_existing_overcounts_witness :
    mapLookup cs2.clients ((cs2.handles 3).userId) = some 2 ∧
    cs2.connectionCount < 5 ∧
    cs2.connectionCount = cs2.clients.length ∧
    ((RegisterClient 5 cs2 3).2.clients.length : Int)
      < (RegisterClient 5 cs2 3).2.connectionCount :=
  ⟨by decide, by decide, by decide,
    (registerClient_existing_overcounts 5 cs2 3 2 (by decide) (by decide) (by decide)).2.2.2⟩

/-! ## C5 — count/entries invariant over interleaved operation sequences -/

/-- A registry operation: `Admit` (RegisterClient) of a handle, `Evict`
(UnregisterClient) of a handle, or `Deliver` (SendToUser) of a frame to a
user id. -/
inductive RegOp where
  | adm : Nat → RegOp
  | evict : Nat → RegOp
  | deliver : Nat → Nat → RegOp
deriving DecidableEq

/-- The state change of one registry operation. -/
def applyOp (cap : Int) (s : MgrState) : RegOp → MgrState
  | .adm h => (RegisterClient cap s h).2
  | .evict h => UnregisterClient s h
  | .deliver u f => (SendToUser s u f).2

/-- Run a sequence of registry operations from left to right. -/
def runOps (cap : Int) (s : MgrState) : List RegOp → MgrState
  | [] => s
  | op :: rest => runOps cap (applyOp cap s op) rest

/-- Handle references of the `admit` operations in a sequence. -/
def admitRefs (ops : List RegOp) : List Nat :=
  ops.filterMap (fun op => match op with | .adm h => some h | _ => none)

@[simp] theorem admitRefs_nil : admitRefs [] = [] := rfl

@[simp] theorem admitRefs_adm (h : Nat) (ops : List RegOp) :
    admitRefs (.adm h :: ops) = h :: admitRefs ops := rfl

@[simp] theorem admitRefs_evict (h : Nat) (ops : List RegOp) :
    admitRefs (.evict h :: ops) = admitRefs ops := rfl

@[simp] theorem admitRefs_deliver (u f : Nat) (ops : List RegOp) :
    admitRefs (.deliver u f :: ops) = admitRefs ops := rfl

/-- The empty registry over an arbitrary heap of handles. -/
def initState (H : Nat → Handle) : MgrState :=
  { clients := [], handles := H, connectionCount := 0,
    onlineUsers := [], statusPublished := [] }

theorem userId_updH (H : Nat → Handle) (x r : Nat) (f : Handle → Handle)
    (hf : ∀ a, (f a).userId = a.userId) :
    (updH H x f r).userId = (H r).userId := by
  unfold updH
  by_cases hrx : r = x
  · simp [hrx, hf]
  · simp [hrx]

/-- No registry operation changes the identity stored in any handle. -/
theorem userId_applyOp (cap : Int) (s : MgrState) (op : RegOp) (r : Nat) :
    ((applyOp cap s op).handles r).userId = (s.handles r).userId := by
  cases op with
  | adm h =>
    simp only [applyOp, RegisterClient]
    by_cases hcap : s.connectionCount ≥ cap
    · simp [hcap]
    · cases hl : mapLookup s.clients ((s.handles h).userId) with
      | none => simp [hcap, hl]
      | some oldRef =>
        simp only [hcap, if_neg hcap, hl]
        exact userId_updH s.handles oldRef r closeHandle (fun a => rfl)
  | evict h =>
    simp only [applyOp, UnregisterClient]
    cases hl : mapLookup s.clients ((s.handles h).userId) with
    | none => simp [hl]
    | some x =>
      simp only [hl]
      exact userId_updH s.handles h r closeSend (fun a => rfl)
  | deliver u f =>
    simp only [applyOp, SendToUser]
    cases hl : mapLookup s.clients u with
    | none => simp [hl]
    | some ref =>
      simp only [hl]
      by_cases hq : (s.handles ref).queue.length < (s.handles ref).queueCap
      · simp only [if_pos hq]
        exact userId_updH s.handles ref r _ (fun a => rfl)
      · simp only [if_neg hq]
        exact userId_updH s.handles ref r closeSend (fun a => rfl)

/-- One admission step preserves `count = entries` when the admitted identity
is not yet in the map. -/
theorem registerClient_count_step (cap : Int) (s : MgrState) (h : Nat)
    (hnone : mapLookup s.clients ((s.handles h).userId) = none)
    (hcount : s.connectionCount = s.clients.length) :
    (RegisterClient cap s h).2.connectionCount
      = ((RegisterClient cap s h).2.clients.length : Int) := by
  simp only [RegisterClient]
  by_cases hcap : s.connectionCount ≥ cap
  · simpa [hcap] using hcount
  · simp only [if_neg hcap, hnone]
    rw [length_mapInsert_of_none hnone]
    push_cast
    omega

/-- One admission step keeps absent identities absent, provided they differ
from the admitted identity. -/
theorem registerClient_lookup_step (cap : Int) (s : MgrState) (h u' : Nat)
    (hne : u' ≠ (s.handles h).userId)
    (hn : mapLookup s.clients u' = none) :
    mapLookup (RegisterClient cap s h).2.clients u' = none := by
  simp only [RegisterClient]
  by_cases hcap : s.connectionCount ≥ cap
  · simpa [hcap] using hn
  · cases hl : mapLookup s.clients ((s.handles h).userId) with
    | none =>
      simp only [if_neg hcap, hl]
      rw [mapLookup_insert_ne hne]
      exact hn
    | some oldRef =>
      simp only [if_neg hcap, hl]
      rw [mapLookup_insert_ne hne]
      exact hn

/-- One eviction step preserves `count = entries`. -/
theorem unregisterClient_count_step (s : MgrState) (h : Nat)
    (hcount : s.connectionCount = s.clients.length) :
    (UnregisterClient s h).connectionCount
      = ((UnregisterClient s h).clients.length : Int) := by
  simp only [UnregisterClient]
  cases hl : mapLookup s.clients ((s.handles h).userId) with
  | none => simpa [hl] using hcount
  | some r =>
    simp only [hl]
    have := length_mapErase_of_some hl
    omega

/-- One eviction step keeps absent identities absent. -/
theorem unregisterClient_lookup_step (s : MgrState) (h u' : Nat)
    (hn : mapLookup s.clients u' = none) :
    mapLookup (UnregisterClient s h).clients u' = none := by
  simp only [UnregisterClient]
  cases hl : mapLookup s.clients ((s.handles h).userId) with
  | none => simpa [hl] using hn
  | some r =>
    simp only [hl]
    exact mapLookup_erase_of_none hn

/-- One delivery step preserves `count = entries`. -/
theorem sendToUser_count_step (s : MgrState) (u f : Nat)
    (hcount : s.connectionCount = s.clients.length) :
    (SendToUser s u f).2.connectionCount
      = ((SendToUser s u f).2.clients.length : Int) := by
  simp only [SendToUser]
  cases hl : mapLookup s.clients u with
  | none => simpa [hl] using hcount
  | some ref =>
    simp only [hl]
    by_cases hq : (s.handles ref).queue.length < (s.handles ref).queueCap
    · simpa [hq] using hcount
    · simp only [if_neg hq]
      have := length_mapErase_of_some hl
      omega

/-- One delivery step keeps absent identities absent. -/
theorem sendToUser_lookup_step (s : MgrState) (u f u' : Nat)
    (hn : mapLookup s.clients u' = none) :
    mapLookup (SendToUser s u f).2.clients u' = none := by
  simp only [SendToUser]
  cases hl : mapLookup s.clients u with
  | none => simpa [hl] using hn
  | some ref =>
    simp only [hl]
    by_cases hq : (s.handles ref).queue.length < (s.handles ref).queueCap
    · simpa [hq] using hn
    · simp only [if_neg hq]
      exact mapLookup_erase_of_none hn

/-- Generalized invariant: running any operation sequence whose admitted
identities are pairwise distinct and not yet registered preserves
`count = entries`. -/
theorem runOps_count_eq_entries (cap : Int) (ops : List RegOp) : ∀ s : MgrState,
    s.connectionCount = s.clients.length →
    (∀ h ∈ admitRefs ops, mapLookup s.clients ((s.handles h).userId) = none) →
    ((admitRefs ops).map (fun h => (s.handles h).userId)).Nodup →
    (runOps cap s ops).connectionCount
      = ((runOps cap s ops).clients.length : Int) := by
  induction ops with
  | nil => intro s hcount _ _; simpa [runOps] using hcount
  | cons op rest ih =>
    intro s hcount hnone hnd
    have hids : ∀ h, ((applyOp cap s op).handles h).userId = (s.handles h).userId :=
      fun h => userId_applyOp cap s op h
    have hmap : (admitRefs rest).map (fun h => ((applyOp cap s op).handles h).userId)
        = (admitRefs rest).map (fun h => (s.handles h).userId) :=
      List.map_congr_left (fun h _ => hids h)
    cases op with
    | adm h =>
      have hh : mapLookup s.clients ((s.handles h).userId) = none :=
        hnone h (by simp)
      refine ih (applyOp cap s (.adm h)) ?_ ?_ ?_
      · exact registerClient_count_step cap s h hh hcount
      · intro h' hh'
        rw [hids h']
        refine registerClient_lookup_step cap s h ((s.handles h').userId) ?_ ?_
        · have := hnd
          simp only [admitRefs_adm, List.map_cons, List.nodup_cons, List.mem_map] at this
          exact fun heq => this.1 ⟨h', hh', heq⟩
        · exact hnone h' (by simp [hh'])
      · rw [hmap]
        simpa using hnd.of_cons
    | evict h =>
      refine ih (applyOp cap s (.evict h)) ?_ ?_ ?_
      · exact unregisterClient_count_step s h hcount
      · intro h' hh'
        rw [hids h']
        exact unregisterClient_lookup_step s h _ (hnone h' (by simpa using hh'))
      · rw [hmap]
        simpa using hnd
    | deliver u f =>
      refine ih (applyOp cap s (.deliver u f)) ?_ ?_ ?_
      · exact sendToUser_count_step s u f hcount
      · intro h' hh'
        rw [hids h']
        exact sendToUser_lookup_step s u f _ (hnone h' (by simpa using hh'))
      · rw [hmap]
        simpa using hnd

/-- C5: starting from the empty registry, for every sequence of admissions
with pairwise distinct identities whose number stays below the cap,
interleaved with arbitrary evictions and deliveries, the connection count
equals the number of entries currently in the registry map. -/
theorem count_eq_entries (cap : Int) (H : Nat → Handle) (ops : List RegOp)
    (hnd : ((admitRefs ops).map (fun h => (H h).userId)).Nodup)
    (_hlen : ((admitRefs ops).length : Int) < cap) :
    (runOps cap (initState H) ops).connectionCount
      = ((runOps cap (initState H) ops).clients.length : Int) := by
  refine runOps_count_eq_entries cap ops (initState H) rfl ?_ hnd
  intro h _
  rfl

/-- C5 witness: two distinct admissions (cap 3) interleaved with a delivery
and an eviction keep `count = entries`. -/
theorem count_eq_entries_witness :
    ((admitRefs [RegOp.adm 1, RegOp.adm 2, RegOp.deliver 1 5, RegOp.evict 1]).map
      (fun h => (exHeap h).userId)).Nodup ∧
    ((admitRefs [RegOp.adm 1, RegOp.adm 2, RegOp.deliver 1 5, RegOp.evict 1]).length : Int) < 3 ∧
    (runOps 3 (initState exHeap)
        [RegOp.adm 1, RegOp.adm 2, RegOp.deliver 1 5, RegOp.evict 1]).connectionCount
      = ((runOps 3 (initState exHeap)
          [RegOp.adm 1, RegOp.adm 2, RegOp.deliver 1 5, RegOp.evict 1]).clients.length : Int) :=
  ⟨by decide, by decide,
    count_eq_entries 3 exHeap [RegOp.adm 1, RegOp.adm 2, RegOp.deliver 1 5, RegOp.evict 1]
      (by decide) (by decide)⟩

/-! ## C9 — topic naming

`KafkaService.BuildTopicName(topicType, id)` is
`fmt.Sprintf("%s%s-%d", config.AppConfig.KafkaTopicPrefix, topicType, id)`.
Go strings are modelled as `List Char`; `%d` is the usual decimal
representation (`natChars`). -/

/-- The character of one decimal digit, as `%d` prints it. -/
def decDigit (d : Nat) : Char := Char.ofNat (48 + d)

/-- The decimal representation printed by `fmt.Sprintf("%d", n)`:
most-significant digit first, `"0"` for zero. -/
def natChars (n : Nat) : List Char :=
  if n = 0 then ['0'] else ((Nat.digits 10 n).map decDigit).reverse

/-- Fold step reading one decimal character back into an accumulator. -/
def decStep (acc : Nat) (c : Char) : Nat := acc * 10 + (c.toNat - 48)

/-- Decode a most-significant-first decimal character list. -/
def decodeDec (l : List Char) : Nat := l.foldl decStep 0

theorem decDigit_toNat : ∀ d < 10, (decDigit d).toNat = 48 + d := by decide

theorem foldl_decStep_rev (ds : List Nat) (hds : ∀ d ∈ ds, d < 10) :
    ∀ a : Nat, List.foldl decStep a ((ds.map decDigit).reverse)
      = a * 10 ^ ds.length + Nat.ofDigits 10 ds := by
  induction ds with
  | nil => intro a; simp [Nat.ofDigits]
  | cons d ds ih =>
    intro a
    simp only [List.map_cons, List.reverse_cons, List.foldl_append,
      List.foldl_cons, List.foldl_nil]
    rw [ih (fun x hx => hds x (List.mem_cons_of_mem _ hx))]
    have hd : (decDigit d).toNat = 48 + d :=
      decDigit_toNat d (hds d (List.mem_cons_self d ds))
    simp only [decStep, hd, Nat.ofDigits_cons, List.length_cons]
    ring_nf
    omega

/-- Reading the printed decimal back yields the number: `decodeDec` is a left
inverse of `natChars`. -/
theorem decodeDec_natChars (n : Nat) : decodeDec (natChars n) = n := by
  by_cases h : n = 0
  · subst h; decide
  · unfold decodeDec natChars
    rw [if_neg h,
      foldl_decStep_rev _ (fun d hd => Nat.digits_lt_base (by norm_num) hd) 0]
    simpa using congrArg Nat.cast (Nat.ofDigits_digits 10 n)

/-- Distinct ids print distinctly. -/
theorem natChars_injective {m n : Nat} (h : natChars m = natChars n) : m = n := by
  have := congrArg decodeDec h
  rwa [decodeDec_natChars, decodeDec_natChars] at this

/-- `KafkaService.BuildTopicName`: the configured topic name prefix, the kind
string, a dash, and the decimal id. -/
def BuildTopicName (pfx topicType : List Char) (id : Nat) : List Char :=
  pfx ++ topicType ++ ('-' :: natChars id)

/-- The four kind strings appearing at `BuildTopicName` call sites. -/
def topicKinds : List (List Char) :=
  ["private".data, "group".data, "global".data, "status".data]

theorem takeWhile_notDash (k rest : List Char) (hk : '-' ∉ k) :
    List.takeWhile (fun c => c != '-') (k ++ '-' :: rest) = k := by
  induction k with
  | nil => simp [List.takeWhile]
  | cons c k ih =>
    have hc : (c != '-') = true := by
      simp only [bne_iff_ne, ne_eq]
      exact fun hcc => hk (hcc ▸ List.mem_cons_self c k)
    simp only [List.cons_append, List.takeWhile_cons, hc, if_true, List.cons.injEq, true_and]
    exact ih (fun hm => hk (List.mem_cons_of_mem _ hm))

theorem dropWhile_notDash (k rest : List Char) (hk : '-' ∉ k) :
    List.dropWhile (fun c => c != '-') (k ++ '-' :: rest) = '-' :: rest := by
  induction k with
  | nil => simp [List.dropWhile]
  | cons c k ih =>
    have hc : (c != '-') = true := by
      simp only [bne_iff_ne, ne_eq]
      exact fun hcc => hk (hcc ▸ List.mem_cons_self c k)
    simp only [List.cons_append, List.dropWhile_cons, hc, if_true]
    exact ih (fun hm => hk (List.mem_cons_of_mem _ hm))

/-- C9: a topic name is exactly `prefix ++ kind ++ "-" ++ decimal id`, and for
kinds drawn from {private, group, global, status} the derivation is injective:
two distinct (kind, id) pairs never collide. -/
theorem buildTopicName_shape_inj (pfx k1 k2 : List Char) (i1 i2 : Nat)
    (h1 : k1 ∈ topicKinds) (h2 : k2 ∈ topicKinds) :
    BuildTopicName pfx k1 i1 = pfx ++ k1 ++ ('-' :: natChars i1) ∧
    (BuildTopicName pfx k1 i1 = BuildTopicName pfx k2 i2 → k1 = k2 ∧ i1 = i2) := by
  refine ⟨rfl, fun heq => ?_⟩
  have hnd1 : '-' ∉ k1 := by
    simp only [topicKinds, List.mem_cons, List.not_mem_nil, or_false] at h1
    rcases h1 with rfl | rfl | rfl | rfl <;> decide
  have hnd2 : '-' ∉ k2 := by
    simp only [topicKinds, List.mem_cons, List.not_mem_nil, or_false] at h2
    rcases h2 with rfl | rfl | rfl | rfl <;> decide
  unfold BuildTopicName at heq
  rw [List.append_assoc, List.append_assoc] at heq
  have heq' : k1 ++ ('-' :: natChars i1) = k2 ++ ('-' :: natChars i2) :=
    List.append_cancel_left heq
  have ht := congrArg (List.takeWhile (fun c => c != '-')) heq'
  rw [takeWhile_notDash _ _ hnd1, takeWhile_notDash _ _ hnd2] at ht
  have hd := congrArg (List.dropWhile (fun c => c != '-')) heq'
  rw [dropWhile_notDash _ _ hnd1, dropWhile_notDash _ _ hnd2] at hd
  exact ⟨ht, natChars_injective (List.cons_injective hd)⟩

/-- C9 witness: applied to the kinds "group" and "private" with ids 12 and 3
under prefix "chat-". -/
theorem buildTopicName_shape_inj_witness :
    "group".data ∈ topicKinds ∧ "private".data ∈ topicKinds ∧
    (BuildTopicName "chat-".data "group".data 12
        = BuildTopicName "chat-".data "private".data 3
      → "group".data = "private".data ∧ 12 = 3) :=
  ⟨by decide, by decide,
    (buildTopicName_shape_inj "chat-".data "group".data "private".data 12 3
      (by decide) (by decide)).2⟩

/-! ## Publish paths (`KafkaService`) and the message distribution handlers -/

/-- Whether a publish goes through the synchronous acknowledged producer
(`PublishMessage`) or the fire-and-forget asynchronous producer
(`PublishMessageAsync`). -/
inductive PubMode where
  | sync
  | async
deriving DecidableEq

/-- One publish handed to the broker: target topic, partition key, and the
producer path used. -/
structure KafkaPublish where
  topic : List Char
  key : List Char
  mode : PubMode
deriving DecidableEq

/-- `KafkaService.PublishChatMessage`: route by group/receiver/global, wrap in
an envelope, and send synchronously for `chat_message`/`system`, otherwise
asynchronously. -/
def PublishChatMessage (pfx : List Char) (msgType : List Char)
    (receiverID groupID : Nat) : KafkaPublish :=
  let tk : List Char × List Char :=
    if groupID > 0 then
      (BuildTopicName pfx "group".data groupID, "group-".data ++ natChars groupID)
    else if receiverID > 0 then
      (BuildTopicName pfx "private".data receiverID, "user-".data ++ natChars receiverID)
    else
      (BuildTopicName pfx "global".data 0, "global".data)
  { topic := tk.1, key := tk.2,
    mode :=
      if msgType = "chat_message".data ∨ msgType = "system".data then .sync
      else .async }

/-- `WebSocketManager.publishUserStatus`: serializes the `user_status`
envelope and hands it to `kafka.PublishMessage` — the synchronous producer —
on the status topic with an empty key.  No store write is involved. -/
def publishUserStatusPub (pfx : List Char) : KafkaPublish :=
  { topic := BuildTopicName pfx "status".data 0, key := [], mode := .sync }

/-- `models.MessageType`. -/
inductive MsgKind where
  | privateMsg
  | groupMsg
  | systemMsg
deriving DecidableEq

/-- `models.Message` (the Chat Event), fields used by the distribution path. -/
structure Message where
  id : Nat
  content : List Char
  type : MsgKind
  senderId : Nat
  receiverId : Nat
  groupId : Nat
deriving DecidableEq

/-- Outcomes of the external collaborators consulted by the distribution
path: the store's `SaveMessage` (error or assigned id), the sender lookup,
and whether the Kafka service is available (`s.kafka != nil`). -/
structure StoreEnv where
  saveResult : Except (List Char) Nat
  senderResult : Except (List Char) (Nat × List Char)
  kafkaAvailable : Bool

/-- `MessageService.ProcessMessage`: save the message through the store —
returning the error *before any publish* when saving fails — then look up the
sender, build the response and publish it synchronously (key `"message"`) to
the group or private topic; a publish error is logged, not returned. -/
def ProcessMessage (pfx : List Char) (env : StoreEnv) (msg : Message) :
    Except (List Char) Unit × List KafkaPublish :=
  match env.saveResult with
  | .error e => (.error e, [])
  | .ok _id =>
    match env.senderResult with
    | .error e => (.error e, [])
    | .ok _sender =>
      if env.kafkaAvailable then
        let topic :=
          if msg.groupId > 0 then BuildTopicName pfx "group".data msg.groupId
          else BuildTopicName pfx "private".data msg.receiverId
        (.ok (), [{ topic := topic, key := "message".data, mode := .sync }])
      else
        (.ok (), [])

/-- `Client.handleChatMessage` (routes.go), the WebSocket `chat_message`
frame path: the store save runs in a separate goroutine whose failure is only
logged — it never gates the publish and the function surfaces no error — then
the sender is looked up (failure aborts silently) and the response is
published through `PublishChatMessage` to the private or group topic. -/
def handleChatMessage (pfx : List Char) (env : StoreEnv) (msg : Message) :
    List KafkaPublish :=
  match env.senderResult with
  | .error _ => []
  | .ok _ =>
    match msg.type with
    | .privateMsg => [PublishChatMessage pfx "chat_message".data msg.receiverId 0]
    | .groupMsg => [PublishChatMessage pfx "chat_message".data 0 msg.groupId]
    | .systemMsg => []

/-- `Client.handleTypingNotification`: builds the typing payload and publishes
it via `PublishChatMessage` with type `"typing"`.  The first component lists
the store writes performed — there are none in the source. -/
def handleTypingNotification (pfx : List Char) (receiverID groupID : Nat) :
    List Message × KafkaPublish :=
  (([] : List Message),
    if groupID > 0 then PublishChatMessage pfx "typing".data 0 groupID
    else PublishChatMessage pfx "typing".data receiverID 0)

/-! ## C1 — persistence failure and the publish -/

/-- Environment in which the store rejects the save but the sender lookup
succeeds and Kafka is reachable. -/
def failEnv : StoreEnv :=
  { saveResult := .error "db down".data,
    senderResult := .ok (1, "alice".data),
    kafkaAvailable := true }

/-- A private chat message from user 1 to user 2. -/
def cexMsg : Message :=
  { id := 0, content := "hi".data, type := .privateMsg,
    senderId := 1, receiverId := 2, groupId := 0 }

/-- C1 counterexample: on the WebSocket `chat_message` frame path
(`Client.handleChatMessage`) a store failure does *not* skip the publish —
the save is fire-and-forget, the envelope is still published (here: one
publish) and the caller observes no error. -/
theorem handleChatMessage_publishes_despite_save_failure :
    failEnv.saveResult.isOk = false ∧
    (handleChatMessage "chat-".data failEnv cexMsg).length = 1 := by
  decide

/-- C1 amended: the persist-before-publish guarantee holds on the
`MessageService.ProcessMessage` path (used by the HTTP send endpoint): when
the store fails, `ProcessMessage` returns that error and publishes nothing. -/
theorem processMessage_save_failure_skips_publish (pfx : List Char)
    (env : StoreEnv) (msg : Message) (e : List Char)
    (h : env.saveResult = .error e) :
    ProcessMessage pfx env msg = (.error e, []) := by
  simp [ProcessMessage, h]

/-- C1 amended witness: `ProcessMessage` under the failing store publishes
nothing and surfaces the error. -/
theorem processMessage_save_failure_skips_publish_witness :
    failEnv.saveResult = Except.error "db down".data ∧
    ProcessMessage "chat-".data failEnv cexMsg
      = (Except.error "db down".data, []) :=
  ⟨rfl, processMessage_save_failure_skips_publish "chat-".data failEnv cexMsg _ rfl⟩

/-! ## C8 — which producer path each event type uses -/

/-- C8 counterexample: `user_status` (presence) events are published through
the *synchronous* producer (`publishUserStatus` calls `PublishMessage`), not
the asynchronous fire-and-forget path the claim asserts. -/
theorem userStatus_publish_is_sync :
    (publishUserStatusPub "chat-".data).mode = PubMode.sync ∧
    PubMode.sync ≠ PubMode.async := by
  constructor
  · rfl
  · intro h; cases h

/-- C8 amended: typing events skip persistence and use the asynchronous path;
`chat_message` (and `system`) events use the synchronous path; `user_status`
events also skip persistence but are published through the *synchronous*
path. -/
theorem publish_path_modes (pfx : List Char) (receiverID groupID : Nat) :
    (handleTypingNotification pfx receiverID groupID).1 = [] ∧
    (handleTypingNotification pfx receiverID groupID).2.mode = PubMode.async ∧
    (PublishChatMessage pfx "chat_message".data receiverID groupID).mode = PubMode.sync ∧
    (PublishChatMessage pfx "system".data receiverID groupID).mode = PubMode.sync ∧
    (publishUserStatusPub pfx).mode = PubMode.sync := by
  refine ⟨rfl, ?_, ?_, ?_, rfl⟩
  · simp only [handleTypingNotification, PublishChatMessage]
    by_cases hg : groupID > 0 <;> simp [hg]
  · simp only [PublishChatMessage]
    rw [if_pos (by decide)]
  · simp only [PublishChatMessage]
    rw [if_pos (by decide)]

/-! ## C10 — outbound drain order (`Client.WritePump`) -/

/-- One transport write performed by the coalescing send branch: a frame
payload or the `'\n'` separator written between coalesced frames. -/
inductive BurstWrite where
  | frame : Nat → BurstWrite
  | newline
deriving DecidableEq

/-- The counted coalescing loop
`for i := 0; i < n; i++ { w.Write('\n'); w.Write(<-c.Send) }`:
receives `n` more frames from the channel, emitting separator + frame each
time. -/
def recvN : Nat → List Nat → List BurstWrite × List Nat
  | 0, q => ([], q)
  | _ + 1, [] => ([], [])
  | n + 1, x :: q =>
    let r := recvN n q
    (.newline :: .frame x :: r.1, r.2)

/-- One send-branch iteration of `WritePump`: receive one frame, then set
`n := len(c.Send)` and coalesce the `n` already-queued frames into the same
write. -/
def writeBurst (q : List Nat) : List BurstWrite × List Nat :=
  match q with
  | [] => ([], [])
  | m :: rest =>
    let r := recvN rest.length rest
    (.frame m :: r.1, r.2)

/-- The frames carried by a write sequence, separators dropped. -/
def framesOf (ws : List BurstWrite) : List Nat :=
  ws.filterMap (fun w => match w with | .frame f => some f | .newline => none)

/-- Enqueue frames one by one onto the `Send` channel (FIFO append). -/
def enqueueAll (q : List Nat) (fs : List Nat) : List Nat :=
  fs.foldl (fun acc f => acc ++ [f]) q

theorem enqueueAll_eq (fs : List Nat) : ∀ q : List Nat, enqueueAll q fs = q ++ fs := by
  induction fs with
  | nil => intro q; simp [enqueueAll]
  | cons f fs ih =>
    intro q
    simp only [enqueueAll, List.foldl_cons] at *
    rw [ih (q ++ [f])]
    simp

theorem recvN_emits_in_order (q : List Nat) :
    framesOf (recvN q.length q).1 = q ∧ (recvN q.length q).2 = [] := by
  induction q with
  | nil => exact ⟨rfl, rfl⟩
  | cons x q ih =>
    simp only [List.length_cons, recvN, framesOf, List.filterMap_cons]
    exact ⟨by simpa [framesOf] using ih.1, ih.2⟩

/-- C10: enqueuing any sequence of frames onto the bounded outbound queue and
draining it through the coalescing write path emits exactly the original
frames in enqueue order (and empties the queue). -/
theorem writePump_drain_order (fs : List Nat) :
    framesOf (writeBurst (enqueueAll [] fs)).1 = fs ∧
    (writeBurst (enqueueAll [] fs)).2 = [] := by
  rw [enqueueAll_eq fs []]
  simp only [List.nil_append]
  cases fs with
  | nil => exact ⟨rfl, rfl⟩
  | cons m rest =>
    have h := recvN_emits_in_order rest
    simp only [writeBurst, framesOf, List.filterMap_cons]
    exact ⟨by simpa [framesOf] using h.1, h.2⟩

end ChatRoom
